import Mathlib

/-!
# Verification of the Cognito PKCE auth gate and transcription upload form

Shallow embedding of `src/frontend/src/App.tsx`: browser Web Storage, the
base64url codec (`btoa`/`atob` platform primitives modelled after the WHATWG
forgiving-base64 specification), SHA-256 (model of `crypto.subtle.digest`),
the PKCE login/exchange flow, the JWT payload label derivation, and the
upload form submission handler.
-/

namespace ClassoMono

/-- Model of a browser Web Storage area (`localStorage` / `sessionStorage`):
an association list of key/value pairs, later `setItem` shadowing earlier. -/
structure Storage where
  entries : List (String × String)
deriving DecidableEq

/-- Model of `storage.getItem(k)`: the stored value, or `none` for JS `null`. -/
def Storage.getItem (st : Storage) (k : String) : Option String :=
  st.entries.lookup k

/-- Model of `storage.setItem(k, v)`: replaces any previous value for `k`. -/
def Storage.setItem (st : Storage) (k v : String) : Storage :=
  ⟨(k, v) :: st.entries.filter (fun e => e.1 != k)⟩

/-- Model of `storage.removeItem(k)`. -/
def Storage.removeItem (st : Storage) (k : String) : Storage :=
  ⟨st.entries.filter (fun e => e.1 != k)⟩

/-- JS truthiness of a `string | null` value: `null` and `""` are falsy. -/
def jsTruthy : Option String → Bool
  | none => false
  | some s => s != ""

/-! ## Base64 (model of the platform `btoa` / `atob` primitives) -/

/-- The standard base64 alphabet, as used by `btoa`/`atob`. -/
def b64Alphabet : List Char :=
  "ABCDEFGHIJKLMNOPQRSTUVWXYZabcdefghijklmnopqrstuvwxyz0123456789+/".toList

/-- The base64 character for a sextet value `n < 64`. -/
def b64Char (n : Nat) : Char := b64Alphabet.getD n 'A'

/-- The sextet value of a base64 character, `none` if outside the alphabet. -/
def b64Index (c : Char) : Option Nat := b64Alphabet.findIdx? (fun x => x == c)

/-- Bytes to sextet values, grouping three bytes into four sextets; a trailing
group of one or two bytes yields two or three sextets (low bits zero). -/
def toSextets : List Nat → List Nat
  | [] => []
  | [b0] => [b0 / 4, b0 % 4 * 16]
  | [b0, b1] => [b0 / 4, b0 % 4 * 16 + b1 / 16, b1 % 16 * 4]
  | b0 :: b1 :: b2 :: r =>
      b0 / 4 :: (b0 % 4 * 16 + b1 / 16) :: (b1 % 16 * 4 + b2 / 64) :: b2 % 64 ::
        toSextets r

/-- Sextet values back to bytes; fails on group shapes base64 forbids
(a trailing group of exactly one sextet). -/
def fromSextets : List Nat → Option (List Nat)
  | [] => some []
  | [_] => none
  | [s0, s1] => some [s0 * 4 + s1 / 16]
  | [s0, s1, s2] => some [s0 * 4 + s1 / 16, s1 % 16 * 16 + s2 / 4]
  | s0 :: s1 :: s2 :: s3 :: r =>
      (fromSextets r).map
        (fun t => (s0 * 4 + s1 / 16) :: (s1 % 16 * 16 + s2 / 4) ::
          (s2 % 4 * 64 + s3) :: t)

/-- ASCII whitespace, stripped by the forgiving-base64 decode of `atob`. -/
def isAsciiWs (c : Char) : Bool :=
  c == ' ' || c == '\t' || c == '\n' || c == '\r' || c == '\x0c'

/-- Model of `btoa` applied to a binary string with the given byte codes:
base64 with `=` padding to a multiple of four characters. -/
def btoaChars (bytes : List Nat) : List Char :=
  (toSextets bytes).map b64Char ++ List.replicate ((3 - bytes.length % 3) % 3) '='

/-- Forgiving-base64 step: when the length is a multiple of four, remove one
or two trailing `=` characters. -/
def stripB64Pad (t : List Char) : List Char :=
  if t.length % 4 == 0 then
    match t.reverse with
    | '=' :: '=' :: r => r.reverse
    | '=' :: r => r.reverse
    | _ => t
  else t

/-- Sextet values of a character list, failing on any non-alphabet
character. -/
def b64IndexAll : List Char → Option (List Nat)
  | [] => some []
  | c :: r => do
      let x ← b64Index c
      let xs ← b64IndexAll r
      pure (x :: xs)

/-- Model of `atob` (WHATWG forgiving-base64 decode) returning the byte codes
of the resulting binary string: strip ASCII whitespace, strip permitted `=`
padding, then every character must be in the alphabet and the group shapes
must be valid. -/
def atobChars (s : List Char) : Option (List Nat) := do
  let t := s.filter (fun c => !isAsciiWs c)
  let u := stripB64Pad t
  let sx ← b64IndexAll u
  fromSextets sx

/-- Model of the single-character global `String.replace` calls in the source
(`/\+/g` etc.): map `a` to `b`, leave every other character alone. -/
def swapChar (a b c : Char) : Char := if c == a then b else c

/-- Removal of the trailing `=` padding (`.replace(/=+$/, '')`). -/
def dropTrailingEq (l : List Char) : List Char :=
  (l.reverse.dropWhile (fun c => c == '=')).reverse

/-- Embedding of `base64UrlEncode` on the byte codes of its input buffer:
`btoa`, then `+` to `-`, `/` to `_`, and the trailing `=` padding stripped. -/
def base64UrlEncodeChars (bytes : List Nat) : List Char :=
  dropTrailingEq (((btoaChars bytes).map (swapChar '+' '-')).map (swapChar '/' '_'))

/-- Embedding of `base64UrlEncode` returning a Lean string. -/
def base64UrlEncode (bytes : List Nat) : String :=
  String.mk (base64UrlEncodeChars bytes)

/-- The `padEnd` call of `base64UrlDecode`: append `=` up to the next multiple
of four characters. -/
def padTo4 (v : List Char) : List Char :=
  v ++ List.replicate ((4 - v.length % 4) % 4) '='

/-- Embedding of `base64UrlDecode` on character lists: re-pad, `-` to `+`,
`_` to `/`, then `atob`; `none` models the `atob` exception. -/
def base64UrlDecodeChars (v : List Char) : Option (List Nat) :=
  atobChars (((padTo4 v).map (swapChar '-' '+')).map (swapChar '_' '/'))

/-- Embedding of `base64UrlDecode`: the resulting binary string has one
character per decoded byte. -/
def base64UrlDecode (s : String) : Option String :=
  (base64UrlDecodeChars s.data).map (fun bs => String.mk (bs.map Char.ofNat))

/-! ## SHA-256 (model of `crypto.subtle.digest('SHA-256', ·)`) -/

/-- Truncation to a 32-bit word. -/
def w32 (n : Nat) : Nat := n % 4294967296

/-- Rotate a 32-bit word right by `n` bits. -/
def rotr32 (n x : Nat) : Nat := w32 ((x >>> n) ||| (x <<< (32 - n)))

/-- SHA-256 small sigma 0. -/
def smallSigma0 (x : Nat) : Nat := (rotr32 7 x) ^^^ (rotr32 18 x) ^^^ (x >>> 3)

/-- SHA-256 small sigma 1. -/
def smallSigma1 (x : Nat) : Nat := (rotr32 17 x) ^^^ (rotr32 19 x) ^^^ (x >>> 10)

/-- SHA-256 big sigma 0. -/
def bigSigma0 (x : Nat) : Nat := (rotr32 2 x) ^^^ (rotr32 13 x) ^^^ (rotr32 22 x)

/-- SHA-256 big sigma 1. -/
def bigSigma1 (x : Nat) : Nat := (rotr32 6 x) ^^^ (rotr32 11 x) ^^^ (rotr32 25 x)

/-- SHA-256 choice function. -/
def sha2Ch (e f g : Nat) : Nat := (e &&& f) ^^^ ((e ^^^ 4294967295) &&& g)

/-- SHA-256 majority function. -/
def sha2Maj (a b c : Nat) : Nat := (a &&& b) ^^^ (a &&& c) ^^^ (b &&& c)

/-- The 64 SHA-256 round constants. -/
def sha256K : List Nat :=
  [1116352408, 1899447441, 3049323471, 3921009573, 961987163,
   1508970993, 2453635748, 2870763221, 3624381080, 310598401,
   607225278, 1426881987, 1925078388, 2162078206, 2614888103,
   3248222580, 3835390401, 4022224774, 264347078, 604807628,
   770255983, 1249150122, 1555081692, 1996064986, 2554220882,
   2821834349, 2952996808, 3210313671, 3336571891, 3584528711,
   113926993, 338241895, 666307205, 773529912, 1294757372,
   1396182291, 1695183700, 1986661051, 2177026350, 2456956037,
   2730485921, 2820302411, 3259730800, 3345764771, 3516065817,
   3600352804, 4094571909, 275423344, 430227734, 506948616,
   659060556, 883997877, 958139571, 1322822218, 1537002063,
   1747873779, 1955562222, 2024104815, 2227730452, 2361852424,
   2428436474, 2756734187, 3204031479, 3329325298]

/-- The SHA-256 working state: eight 32-bit words. -/
structure Hash8 where
  a : Nat
  b : Nat
  c : Nat
  d : Nat
  e : Nat
  f : Nat
  g : Nat
  h : Nat

/-- Message-schedule extension: the 16 words of a chunk extended to 64. -/
def sha256Schedule (chunk : List Nat) : List Nat :=
  (List.range 48).foldl
    (fun w i =>
      w ++ [w32 (smallSigma1 (w.getD (i + 14) 0) + w.getD (i + 9) 0 +
        smallSigma0 (w.getD (i + 1) 0) + w.getD i 0)])
    chunk

/-- One SHA-256 compression round with constant and schedule word `kw`. -/
def sha256Round (st : Hash8) (kw : Nat × Nat) : Hash8 :=
  let t1 := w32 (st.h + bigSigma1 st.e + sha2Ch st.e st.f st.g + kw.1 + kw.2)
  let t2 := w32 (bigSigma0 st.a + sha2Maj st.a st.b st.c)
  ⟨w32 (t1 + t2), st.a, st.b, st.c, w32 (st.d + t1), st.e, st.f, st.g⟩

/-- Compression of one 16-word chunk into the running hash. -/
def sha256Compress (st : Hash8) (chunk : List Nat) : Hash8 :=
  let r := ((sha256K.zip (sha256Schedule chunk)).foldl sha256Round st)
  ⟨w32 (st.a + r.a), w32 (st.b + r.b), w32 (st.c + r.c), w32 (st.d + r.d),
   w32 (st.e + r.e), w32 (st.f + r.f), w32 (st.g + r.g), w32 (st.h + r.h)⟩

/-- SHA-256 message padding: `0x80`, zeros to 56 mod 64, 8 length bytes. -/
def sha256Pad (msg : List Nat) : List Nat :=
  let L := msg.length
  let k := (64 + 55 - L % 64) % 64
  msg ++ [128] ++ List.replicate k 0 ++
    (List.range 8).map (fun i => ((L * 8) >>> (8 * (7 - i))) % 256)

/-- Fuel-driven worker splitting a byte list into 64-byte chunks; structural
recursion on the fuel so that it reduces inside the kernel. -/
def chunks64Go : Nat → List Nat → List (List Nat)
  | 0, _ => []
  | _, [] => []
  | fuel + 1, x :: xs => (x :: xs).take 64 :: chunks64Go fuel ((x :: xs).drop 64)

/-- Split a byte list into 64-byte chunks (each step consumes at least one
element, so the list's length is enough fuel). -/
def chunks64 (l : List Nat) : List (List Nat) := chunks64Go l.length l

/-- Four big-endian bytes to one 32-bit word, over a whole chunk. -/
def bytesToWords : List Nat → List Nat
  | b0 :: b1 :: b2 :: b3 :: r =>
      (b0 * 16777216 + b1 * 65536 + b2 * 256 + b3) :: bytesToWords r
  | _ => []

/-- The SHA-256 initial hash value. -/
def sha256Init : Hash8 :=
  ⟨1779033703, 3144134277, 1013904242, 2773480762,
   1359893119, 2600822924, 528734635, 1541459225⟩

/-- One 32-bit word as four big-endian bytes. -/
def word4 (x : Nat) : List Nat :=
  [x / 16777216 % 256, x / 65536 % 256, x / 256 % 256, x % 256]

/-- SHA-256 digest of a byte list, as the 32 digest bytes. -/
def sha256Bytes (msg : List Nat) : List Nat :=
  let fin := (chunks64 (sha256Pad msg)).foldl
    (fun st c => sha256Compress st (bytesToWords c)) sha256Init
  word4 fin.a ++ word4 fin.b ++ word4 fin.c ++ word4 fin.d ++
    word4 fin.e ++ word4 fin.f ++ word4 fin.g ++ word4 fin.h

/-! ## UTF-8 and `application/x-www-form-urlencoded` serialization -/

/-- UTF-8 encoding of one character (model of `TextEncoder.encode`). -/
def utf8EncodeChar (c : Char) : List Nat :=
  let n := c.toNat
  if n < 128 then [n]
  else if n < 2048 then [192 + n / 64, 128 + n % 64]
  else if n < 65536 then [224 + n / 4096, 128 + n / 64 % 64, 128 + n % 64]
  else [240 + n / 262144, 128 + n / 4096 % 64, 128 + n / 64 % 64, 128 + n % 64]

/-- UTF-8 encoding of a string as a byte list. -/
def utf8Encode (s : String) : List Nat := (s.data.map utf8EncodeChar).flatten

/-- Uppercase hexadecimal digit. -/
def hexDigit (n : Nat) : Char := "0123456789ABCDEF".toList.getD n '0'

/-- Byte serialization of the urlencoded form serializer used by
`URLSearchParams.toString`: alphanumeric and `*-._` kept, space becomes `+`,
anything else percent-escaped. -/
def formEncByte (b : Nat) : List Char :=
  if b == 32 then ['+']
  else if b == 42 || b == 45 || b == 46 || b == 95 ||
      (48 ≤ b && b ≤ 57) || (65 ≤ b && b ≤ 90) || (97 ≤ b && b ≤ 122) then
    [Char.ofNat b]
  else ['%', hexDigit (b / 16), hexDigit (b % 16)]

/-- Form-urlencoding of one string. -/
def formEncode (s : String) : String :=
  String.mk ((utf8Encode s).map formEncByte).flatten

/-- Model of `URLSearchParams.toString()` for an ordered pair list. -/
def serializeParams (ps : List (String × String)) : String :=
  String.intercalate "&" (ps.map (fun p => formEncode p.1 ++ "=" ++ formEncode p.2))

/-! ## Auth gate -/

/-- Embedding of the `AuthConfig` record. -/
structure AuthConfig where
  domain : String
  clientId : String
  redirectUri : String
  logoutUri : String
  scope : String
  authority : Option String

/-- The fixed session-storage key for the PKCE verifier. -/
def CODE_VERIFIER_KEY : String := "cognito_pkce_verifier"

/-- The durable-storage key for the ID token. -/
def ID_TOKEN_KEY : String := "cognito_id_token"

/-- The durable-storage key for the access token. -/
def ACCESS_TOKEN_KEY : String := "cognito_access_token"

/-- Embedding of `isAuthenticated`, over the `localStorage` contents:
truthiness of either stored token. -/
def isAuthenticated (localSt : Storage) : Bool :=
  jsTruthy (localSt.getItem ID_TOKEN_KEY) || jsTruthy (localSt.getItem ACCESS_TOKEN_KEY)

/-- Embedding of `buildHostedUrl`. -/
def buildHostedUrl (config : AuthConfig) (path : String) : String :=
  let base := if config.domain.startsWith "http" then config.domain
    else "https://" ++ config.domain
  base ++ path

/-- Embedding of `buildLogoutUrl`. -/
def buildLogoutUrl (config : AuthConfig) : String :=
  buildHostedUrl config "/logout" ++ "?" ++
    serializeParams [("client_id", config.clientId), ("logout_uri", config.logoutUri)]

/-- Embedding of `randomVerifier`: the 64 bytes delivered by
`crypto.getRandomValues` are an input of the model. -/
def randomVerifier (rnd : List Nat) : String := base64UrlEncode rnd

/-- Embedding of `createCodeChallenge`: UTF-8 encode the verifier, SHA-256,
base64url. -/
def createCodeChallenge (verifier : String) : String :=
  base64UrlEncode (sha256Bytes (utf8Encode verifier))

/-- Result of `buildLoginUrl`: the authorization URL and the session storage
after the verifier write. -/
structure LoginUrlResult where
  url : String
  session : Storage

/-- The ordered query parameters of the authorization URL. -/
def loginQueryParams (config : AuthConfig) (codeChallenge : String) :
    List (String × String) :=
  [("client_id", config.clientId), ("response_type", "code"),
   ("scope", config.scope), ("redirect_uri", config.redirectUri),
   ("code_challenge", codeChallenge), ("code_challenge_method", "S256")]

/-- Embedding of `buildLoginUrl`: generates the verifier from the given
random bytes, derives the challenge, stores the verifier, and serializes the
authorization URL. -/
def buildLoginUrl (config : AuthConfig) (rnd : List Nat) (sessionSt : Storage) :
    LoginUrlResult :=
  let codeVerifier := randomVerifier rnd
  let codeChallenge := createCodeChallenge codeVerifier
  let sessionSt := sessionSt.setItem CODE_VERIFIER_KEY codeVerifier
  { url := buildHostedUrl config "/oauth2/authorize" ++ "?" ++
      serializeParams (loginQueryParams config codeChallenge),
    session := sessionSt }

/-- The token-endpoint JSON payload (`{id_token?, access_token?}`); absent
fields are `none`. -/
structure TokenPayload where
  id_token : Option String
  access_token : Option String

/-- The token-endpoint HTTP response as seen by `exchangeCodeForTokens`:
`ok` status and the result of `response.json()` (`none` models a body that is
not valid JSON, i.e. `json()` throwing). -/
structure TokenResp where
  ok : Bool
  jsonBody : Option TokenPayload

/-- The distinct `throw` sites of `exchangeCodeForTokens`. -/
inductive ExErr where
  | missingVerifier
  | httpError
  | jsonError
deriving DecidableEq

/-- Everything observable about one `exchangeCodeForTokens` call: the
returned value or thrown error, both storages afterwards, whether `fetch`
was issued, and the form body it was issued with. -/
structure ExchangeOutcome where
  result : Except ExErr Bool
  session : Storage
  durable : Storage
  fetched : Bool
  requestBody : Option String

/-- Embedding of `exchangeCodeForTokens`. The network response is an input of
the model; it is only consulted when `fetch` is actually issued. -/
def exchangeCodeForTokens (config : AuthConfig) (code : String)
    (sessionSt localSt : Storage) (resp : TokenResp) : ExchangeOutcome :=
  let verifier := sessionSt.getItem CODE_VERIFIER_KEY
  if !jsTruthy verifier then
    ⟨.error .missingVerifier, sessionSt, localSt, false, none⟩
  else
    let body := serializeParams
      [("grant_type", "authorization_code"), ("client_id", config.clientId),
       ("code", code), ("redirect_uri", config.redirectUri),
       ("code_verifier", verifier.getD "")]
    if !resp.ok then
      ⟨.error .httpError, sessionSt, localSt, true, some body⟩
    else
      match resp.jsonBody with
      | none => ⟨.error .jsonError, sessionSt, localSt, true, some body⟩
      | some payload =>
          let localSt := if jsTruthy payload.id_token
            then localSt.setItem ID_TOKEN_KEY (payload.id_token.getD "")
            else localSt
          let localSt := if jsTruthy payload.access_token
            then localSt.setItem ACCESS_TOKEN_KEY (payload.access_token.getD "")
            else localSt
          ⟨.ok (jsTruthy payload.id_token || jsTruthy payload.access_token),
            sessionSt.removeItem CODE_VERIFIER_KEY, localSt, true, some body⟩

/-! ## JWT label derivation -/

/-- JS `a || b` on strings (`""` is falsy). -/
def jsOrStr (a b : String) : String := if a != "" then a else b

/-- Property access `obj[k]` on a string record; an absent field reads as the
falsy `""` (JS `undefined` is falsy wherever the source tests it). -/
def lookupStr (obj : List (String × String)) (k : String) : String :=
  (obj.lookup k).getD ""

/-- Model of the JS `split('.')` call: split at every dot, keeping empty
pieces (so an absent piece reads as `none` via `get?`). -/
def splitDot : List Char → List (List Char)
  | [] => [[]]
  | c :: r =>
      if c == '.' then [] :: splitDot r
      else
        match splitDot r with
        | [] => [[c]]
        | p :: ps => (c :: p) :: ps

/-- Embedding of `getUserLabel`. `JSON.parse` is a platform primitive, so the
parse function is an input of the model (`none` models a parse exception);
the `try`/`catch` also absorbs the `atob` exception of `base64UrlDecode`. -/
def getUserLabel (parseJson : String → Option (List (String × String)))
    (localSt : Storage) : String :=
  match localSt.getItem ID_TOKEN_KEY with
  | none => ""
  | some idToken =>
    if idToken == "" then ""
    else
      match ((splitDot idToken.data).map String.mk).get? 1 with
      | none => ""
      | some payload =>
        if payload == "" then ""
        else
          match base64UrlDecode payload with
          | none => ""
          | some decodedStr =>
            match parseJson decodedStr with
            | none => ""
            | some obj =>
              jsOrStr (lookupStr obj "name") (jsOrStr (lookupStr obj "given_name")
                (jsOrStr (lookupStr obj "email") (jsOrStr (lookupStr obj "cognito:username")
                  (jsOrStr (lookupStr obj "preferred_username")
                    (jsOrStr (lookupStr obj "username") "")))))

/-- Spec-side reading of the claim chain in `getUserLabel` (for the
refinement part of the claim): the value of the first listed claim key
present in the record with a truthy (non-empty) value. -/
def firstPresent (obj : List (String × String)) : List String → String
  | [] => ""
  | k :: ks =>
    match obj.lookup k with
    | some v => if v != "" then v else firstPresent obj ks
    | none => firstPresent obj ks

/-! ## Page-load effect and auth state machine -/

/-- The query parameters of the current location that the load effect reads. -/
structure Query where
  code : Option String
  error : Option String

/-- The auth-relevant React state plus both storage areas. -/
structure AppState where
  authed : Bool
  authError : String
  session : Storage
  durable : Storage

/-- Result of a page load: the settled state and whether a token exchange
request was issued. -/
structure LoadResult where
  state : AppState
  fetched : Bool

/-- Embedding of a page load of `App`: `authed` initializes from
`isAuthenticated()`; the effect surfaces an `error` parameter without
exchanging, ignores an absent `code`, and otherwise runs
`exchangeCodeForTokens`, updating state from its promise. -/
def pageLoad (config : AuthConfig) (q : Query) (sessionSt localSt : Storage)
    (resp : TokenResp) : LoadResult :=
  let authed0 := isAuthenticated localSt
  if jsTruthy q.error then
    ⟨⟨authed0, q.error.getD "", sessionSt, localSt⟩, false⟩
  else if !jsTruthy q.code then
    ⟨⟨authed0, "", sessionSt, localSt⟩, false⟩
  else
    let out := exchangeCodeForTokens config (q.code.getD "") sessionSt localSt resp
    match out.result with
    | .ok didStore =>
        if didStore then ⟨⟨true, "", out.session, out.durable⟩, out.fetched⟩
        else ⟨⟨authed0, "", out.session, out.durable⟩, out.fetched⟩
    | .error _ =>
        ⟨⟨authed0, "Token exchange failed", out.session, out.durable⟩, out.fetched⟩

/-- Embedding of the logout click handler: both tokens removed, `authed`
cleared (the subsequent navigation leaves the page). -/
def logoutClick (s : AppState) : AppState :=
  { s with
      authed := false,
      durable := (s.durable.removeItem ID_TOKEN_KEY).removeItem ACCESS_TOKEN_KEY }

/-- Embedding of the login click handler: with config present it stores a
fresh verifier via `buildLoginUrl` (and then navigates away). -/
def loginClick (s : AppState) (config : AuthConfig) (rnd : List Nat) : AppState :=
  if config.domain != "" && config.clientId != "" then
    { s with session := (buildLoginUrl config rnd s.session).session }
  else s

/-- The auth states reachable in the app: any page load, closed under the
logout and login click handlers. -/
inductive Reachable : AppState → Prop
  | load (config : AuthConfig) (q : Query) (sessionSt localSt : Storage)
      (resp : TokenResp) :
      Reachable (pageLoad config q sessionSt localSt resp).state
  | logout (s : AppState) : Reachable s → Reachable (logoutClick s)
  | login (s : AppState) (config : AuthConfig) (rnd : List Nat) :
      Reachable s → Reachable (loginClick s config rnd)

/-! ## Upload form -/

/-- One transcript segment (`{start, end, text}`); claims treat the time
values opaquely, modelled as rationals. -/
structure TranscriptSegment where
  start : Rat
  stop : Rat
  text : String
deriving DecidableEq

/-- The transcription endpoint's success payload. -/
structure TranscriptResponse where
  text : String
  language : Option String
  segments : List TranscriptSegment
deriving DecidableEq

/-- One possible outcome of the transcription `fetch`, as consumed by
`handleSubmit`: a network-level rejection (with the thrown error's message
when it was an `Error`), a non-2xx response with its body text, a 2xx
response with parsed payload, or a 2xx response whose body fails to parse. -/
inductive FetchOutcome where
  | netThrow (msg : Option String)
  | httpError (body : String)
  | httpOk (payload : TranscriptResponse)
  | httpOkBadJson (msg : Option String)

/-- The React state of the upload form (`DefaultApp`). -/
structure UploadState where
  file : Option String
  language : String
  isSubmitting : Bool
  error : String
  result : Option TranscriptResponse

/-- Result of one form submission: the settled state, whether a request was
issued, and its URL. -/
structure SubmitResult where
  state : UploadState
  fetched : Bool
  requestUrl : Option String

/-- Embedding of `DefaultApp.handleSubmit`: a no-op without a file or while
submitting; otherwise posts to the transcription endpoint (optional trimmed
language hint in the query) and settles error/result from the outcome. -/
def handleSubmit (parseJson : String → Option (List (String × String)))
    (s : UploadState) (outcome : FetchOutcome) : SubmitResult :=
  if s.file.isNone || s.isSubmitting then ⟨s, false, none⟩
  else
    let url := if s.language.trim != "" then
        "/api/transcribe/segment?" ++ serializeParams [("language", s.language.trim)]
      else "/api/transcribe/segment"
    match outcome with
    | .netThrow msg =>
        ⟨{ s with
            error := msg.getD "Unable to reach the API",
            result := none,
            isSubmitting := false }, true, some url⟩
    | .httpError body =>
        let message := match parseJson body with
          | some obj =>
              match obj.lookup "detail" with
              | some d => if d != "" then d else "Transcription failed"
              | none => "Transcription failed"
          | none => "Transcription failed"
        ⟨{ s with
            error := message,
            result := none,
            isSubmitting := false }, true, some url⟩
    | .httpOkBadJson msg =>
        ⟨{ s with
            error := msg.getD "Unable to reach the API",
            result := none,
            isSubmitting := false }, true, some url⟩
    | .httpOk payload =>
        ⟨{ s with
            error := "",
            result := some payload,
            isSubmitting := false }, true, some url⟩

/-! ## Concrete flat JSON object parser

Witness instantiation for the abstract `JSON.parse` parameter: a parser for
the fragment exercised by the claims, objects with string keys and string
values. On this fragment it agrees with `JSON.parse` (later duplicate keys
win, realized by reversing the pair list). -/

/-- Skip JSON whitespace. -/
def skipWs : List Char → List Char
  | c :: r =>
      if c == ' ' || c == '\t' || c == '\n' || c == '\r' then skipWs r else c :: r
  | [] => []

/-- JSON string escape characters handled by the model. -/
def jsonEscape (e : Char) : Option Char :=
  if e == '"' then some '"'
  else if e == '\\' then some '\\'
  else if e == '/' then some '/'
  else if e == 'n' then some '\n'
  else if e == 't' then some '\t'
  else if e == 'r' then some '\r'
  else if e == 'b' then some '\x08'
  else if e == 'f' then some '\x0c'
  else none

/-- Scan a JSON string body up to its closing quote. -/
def scanJsonString : List Char → Option (List Char × List Char)
  | [] => none
  | '"' :: r => some ([], r)
  | '\\' :: e :: r =>
      match jsonEscape e with
      | some c => (scanJsonString r).map (fun p => (c :: p.1, p.2))
      | none => none
  | c :: r => (scanJsonString r).map (fun p => (c :: p.1, p.2))

/-- Parse a comma-separated run of `"key": "value"` pairs (fuel-driven). -/
def parsePairsGo : Nat → List Char → Option (List (String × String) × List Char)
  | 0, _ => none
  | fuel + 1, l =>
    match skipWs l with
    | '"' :: r => do
      let (k, r1) ← scanJsonString r
      match skipWs r1 with
      | ':' :: r2 =>
        match skipWs r2 with
        | '"' :: r3 => do
          let (v, r4) ← scanJsonString r3
          match skipWs r4 with
          | ',' :: r5 =>
              (parsePairsGo fuel r5).map
                (fun p => ((String.mk k, String.mk v) :: p.1, p.2))
          | r5 => some ([(String.mk k, String.mk v)], r5)
        | _ => none
      | _ => none
    | _ => none

/-- Concrete parser for flat JSON objects with string keys and values. -/
def parseJsonFlat (s : String) : Option (List (String × String)) :=
  match skipWs s.data with
  | '{' :: r =>
    match skipWs r with
    | '}' :: r2 => if (skipWs r2).isEmpty then some [] else none
    | r1 => do
      let (ps, rest) ← parsePairsGo (r1.length + 1) r1
      match rest with
      | '}' :: r2 => if (skipWs r2).isEmpty then some ps.reverse else none
      | _ => none
  | _ => none

example : base64UrlEncode [77] = "TQ" := by decide
example : base64UrlEncode [77, 97] = "TWE" := by decide
example : base64UrlEncode [77, 97, 110] = "TWFu" := by decide
example : base64UrlEncode [251, 255, 190] = "-_--" := by decide
example : base64UrlDecodeChars "TWE".toList = some [77, 97] := by rfl
example : base64UrlDecodeChars "-_--".toList = some [251, 255, 190] := by rfl
example : base64UrlDecodeChars "a".toList = none := by rfl
example : sha256Bytes [97, 98, 99] =
    [0xba, 0x78, 0x16, 0xbf, 0x8f, 0x01, 0xcf, 0xea, 0x41, 0x41, 0x40, 0xde,
     0x5d, 0xae, 0x22, 0x23, 0xb0, 0x03, 0x61, 0xa3, 0x96, 0x17, 0x7a, 0x9c,
     0xb4, 0x10, 0xff, 0x61, 0xf2, 0x00, 0x15, 0xad] := by rfl
example : formEncode "openid email profile" = "openid+email+profile" := by rfl
example : formEncode "https://x.example/cb" = "https%3A%2F%2Fx.example%2Fcb" := by rfl
example : parseJsonFlat "\x7b\"email\":\"x@y.com\"\x7d" = some [("email", "x@y.com")] := by rfl
example : parseJsonFlat " \x7b \"a\" : \"1\" , \"b\" : \"2\" \x7d " =
    some [("b", "2"), ("a", "1")] := by rfl
example : parseJsonFlat "\x7b\x7d" = some [] := by rfl
example : parseJsonFlat "not json" = none := by rfl
example : parseJsonFlat "\x7b\"detail\":\"file too large\"\x7d" =
    some [("detail", "file too large")] := by rfl

/-! ## Storage lemmas -/

/-- Filtering out a key leaves lookups of other keys unchanged. -/
theorem lookup_filter_ne (es : List (String × String)) (k k' : String)
    (h : k' ≠ k) :
    (es.filter (fun e => e.1 != k)).lookup k' = es.lookup k' := by
  induction es with
  | nil => rfl
  | cons e es ih =>
    obtain ⟨a, b⟩ := e
    rw [List.filter_cons]
    by_cases he : a = k
    · have h1 : ((a, b).1 != k) = false := by simp [he]
      have h2 : (k' == a) = false := by
        subst he
        simp [h]
      simp only [h1, Bool.false_eq_true, if_false, ih, List.lookup, h2]
    · have h1 : ((a, b).1 != k) = true := by simp [he]
      simp only [h1, if_true, List.lookup]
      cases hbe : (k' == a) <;> simp [hbe, ih]

/-- Reading the key just written. -/
theorem Storage.getItem_setItem_self (st : Storage) (k v : String) :
    (st.setItem k v).getItem k = some v := by
  simp [Storage.getItem, Storage.setItem, List.lookup]

/-- Reading another key after a write. -/
theorem Storage.getItem_setItem_ne (st : Storage) (k v k' : String)
    (h : k' ≠ k) : (st.setItem k v).getItem k' = st.getItem k' := by
  have hk : (k' == k) = false := by simp [h]
  simp [Storage.getItem, Storage.setItem, List.lookup, hk, lookup_filter_ne _ _ _ h]

/-- Reading the key just removed. -/
theorem Storage.getItem_removeItem_self (st : Storage) (k : String) :
    (st.removeItem k).getItem k = none := by
  simp only [Storage.getItem, Storage.removeItem]
  induction st.entries with
  | nil => rfl
  | cons e es ih =>
    obtain ⟨a, b⟩ := e
    rw [List.filter_cons]
    by_cases he : a = k
    · have h1 : ((a, b).1 != k) = false := by simp [he]
      simp only [h1, Bool.false_eq_true, if_false]
      exact ih
    · have h1 : ((a, b).1 != k) = true := by simp [he]
      have h2 : (k == a) = false := by
        simp only [beq_eq_false_iff_ne, ne_eq]
        exact fun hh => he hh.symm
      simp only [h1, if_true, List.lookup, h2]
      exact ih

/-- Reading another key after a removal. -/
theorem Storage.getItem_removeItem_ne (st : Storage) (k k' : String)
    (h : k' ≠ k) : (st.removeItem k).getItem k' = st.getItem k' := by
  simp [Storage.getItem, Storage.removeItem, lookup_filter_ne _ _ _ h]

/-! ## Exchange and page-load lemmas -/

/-- Truthiness survives the `getD ""` read of a truthy optional value. -/
theorem jsTruthy_some_getD (o : Option String) (h : jsTruthy o = true) :
    jsTruthy (some (o.getD "")) = true := by
  cases o with
  | none => simp [jsTruthy] at h
  | some v => simpa [jsTruthy] using h

/-- Truthiness of `string | null` spelled out. -/
theorem jsTruthy_iff (o : Option String) :
    jsTruthy o = true ↔ ∃ v, o = some v ∧ v ≠ "" := by
  cases o <;> simp [jsTruthy]

/-- On any thrown error, `exchangeCodeForTokens` returns both storages
unchanged. -/
theorem exchange_error_storages (config : AuthConfig) (code : String)
    (sessionSt localSt : Storage) (resp : TokenResp) (e : ExErr)
    (h : (exchangeCodeForTokens config code sessionSt localSt resp).result =
      .error e) :
    (exchangeCodeForTokens config code sessionSt localSt resp).session =
      sessionSt ∧
    (exchangeCodeForTokens config code sessionSt localSt resp).durable =
      localSt := by
  by_cases hv : jsTruthy (sessionSt.getItem CODE_VERIFIER_KEY)
  · by_cases hok : resp.ok
    · cases hb : resp.jsonBody with
      | none => simp [exchangeCodeForTokens, hv, hok, hb]
      | some payload =>
          exfalso
          simp [exchangeCodeForTokens, hv, hok, hb] at h
    · simp [exchangeCodeForTokens, hv, hok]
  · simp [exchangeCodeForTokens, hv]

/-- After an exchange returning `d`, durable storage authenticates exactly
when a token was stored (`d`) or it already authenticated before. -/
theorem exchange_ok_durable (config : AuthConfig) (code : String)
    (sessionSt localSt : Storage) (resp : TokenResp) (d : Bool)
    (h : (exchangeCodeForTokens config code sessionSt localSt resp).result =
      .ok d) :
    isAuthenticated
      (exchangeCodeForTokens config code sessionSt localSt resp).durable =
      (d || isAuthenticated localSt) := by
  have hne : ID_TOKEN_KEY ≠ ACCESS_TOKEN_KEY := by decide
  have hne' : ACCESS_TOKEN_KEY ≠ ID_TOKEN_KEY := by decide
  by_cases hv : jsTruthy (sessionSt.getItem CODE_VERIFIER_KEY)
  · by_cases hok : resp.ok
    · cases hb : resp.jsonBody with
      | none => simp [exchangeCodeForTokens, hv, hok, hb] at h
      | some payload =>
          simp only [exchangeCodeForTokens, hv, hok, hb] at h ⊢
          simp only [Bool.not_true, Bool.false_eq_true, if_false, if_true,
            Bool.not_false] at h ⊢
          cases hid : jsTruthy payload.id_token with
          | true =>
              cases hacc : jsTruthy payload.access_token with
              | true =>
                  simp only [hid, hacc, if_true, Except.ok.injEq] at h ⊢
                  simp [isAuthenticated, Storage.getItem_setItem_self,
                    Storage.getItem_setItem_ne _ _ _ _ hne,
                    jsTruthy_some_getD _ hid, ← h]
              | false =>
                  simp only [hid, hacc, if_true, Bool.false_eq_true, if_false,
                    Except.ok.injEq] at h ⊢
                  simp [isAuthenticated, Storage.getItem_setItem_self,
                    jsTruthy_some_getD _ hid, ← h]
          | false =>
              cases hacc : jsTruthy payload.access_token with
              | true =>
                  simp only [hid, hacc, if_true, Bool.false_eq_true, if_false,
                    Except.ok.injEq] at h ⊢
                  simp [isAuthenticated, Storage.getItem_setItem_self,
                    Storage.getItem_setItem_ne _ _ _ _ hne',
                    jsTruthy_some_getD _ hacc, ← h]
              | false =>
                  simp only [hid, hacc, Bool.false_eq_true, if_false,
                    Except.ok.injEq] at h ⊢
                  simp [← h]
    · simp [exchangeCodeForTokens, hv, hok] at h
  · simp [exchangeCodeForTokens, hv] at h

/-- A page load always leaves the rendered `authed` flag agreeing with the
storage presence check on the resulting durable storage. -/
theorem pageLoad_consistent (config : AuthConfig) (q : Query)
    (sessionSt localSt : Storage) (resp : TokenResp) :
    (pageLoad config q sessionSt localSt resp).state.authed =
      isAuthenticated (pageLoad config q sessionSt localSt resp).state.durable := by
  by_cases herr : jsTruthy q.error
  · simp [pageLoad, herr]
  · have herr' : jsTruthy q.error = false := by simpa using herr
    by_cases hcode : jsTruthy q.code
    · cases hres : (exchangeCodeForTokens config (q.code.getD "") sessionSt
          localSt resp).result with
      | error e =>
          have hst := exchange_error_storages config (q.code.getD "")
            sessionSt localSt resp e hres
          simp [pageLoad, herr', hcode, hres, hst.2]
      | ok d =>
          have hd := exchange_ok_durable config (q.code.getD "") sessionSt
            localSt resp d hres
          cases d with
          | true => simp [pageLoad, herr', hcode, hres, hd]
          | false => simp [pageLoad, herr', hcode, hres, hd]
    · have hcode' : jsTruthy q.code = false := by simpa using hcode
      simp [pageLoad, herr', hcode']

/-- Removing both token keys de-authenticates the store. -/
theorem isAuthenticated_logout (st : Storage) :
    isAuthenticated
      ((st.removeItem ID_TOKEN_KEY).removeItem ACCESS_TOKEN_KEY) = false := by
  have hne : ID_TOKEN_KEY ≠ ACCESS_TOKEN_KEY := by decide
  simp [isAuthenticated, Storage.getItem_removeItem_self,
    Storage.getItem_removeItem_ne _ _ _ hne, jsTruthy]

/-! ## Base64 round-trip lemmas -/

/-- Decoding inverts encoding at the sextet level, for byte inputs. -/
theorem fromSextets_toSextets (bs : List Nat) (h : ∀ b ∈ bs, b < 256) :
    fromSextets (toSextets bs) = some bs := by
  induction bs using toSextets.induct with
  | case1 => rfl
  | case2 b0 =>
      have h0 := h b0 (by simp)
      simp [toSextets, fromSextets]
      omega
  | case3 b0 b1 =>
      have h0 := h b0 (by simp)
      have h1 := h b1 (by simp)
      simp [toSextets, fromSextets]
      constructor <;> omega
  | case4 b0 b1 b2 r ih =>
      have h0 := h b0 (by simp)
      have h1 := h b1 (by simp)
      have h2 := h b2 (by simp)
      have ih' := ih (fun b hb => h b (by simp [hb]))
      simp [toSextets, fromSextets, ih']
      refine ⟨?_, ?_, ?_⟩ <;> omega

/-- Sextet values of byte inputs are sextets. -/
theorem toSextets_lt (bs : List Nat) (h : ∀ b ∈ bs, b < 256) :
    ∀ x ∈ toSextets bs, x < 64 := by
  induction bs using toSextets.induct with
  | case1 => simp [toSextets]
  | case2 b0 =>
      have h0 := h b0 (by simp)
      intro x hx
      simp [toSextets] at hx
      rcases hx with rfl | rfl <;> omega
  | case3 b0 b1 =>
      have h0 := h b0 (by simp)
      have h1 := h b1 (by simp)
      intro x hx
      simp [toSextets] at hx
      rcases hx with rfl | rfl | rfl <;> omega
  | case4 b0 b1 b2 r ih =>
      have h0 := h b0 (by simp)
      have h1 := h b1 (by simp)
      have h2 := h b2 (by simp)
      intro x hx
      simp [toSextets] at hx
      rcases hx with rfl | rfl | rfl | rfl | hx
      · omega
      · omega
      · omega
      · omega
      · exact ih (fun b hb => h b (by simp [hb])) x hx

/-- Length of the sextet list in terms of the byte count. -/
theorem toSextets_length (bs : List Nat) :
    (toSextets bs).length =
      4 * (bs.length / 3) +
        (if bs.length % 3 = 0 then 0 else bs.length % 3 + 1) := by
  induction bs using toSextets.induct with
  | case1 => rfl
  | case2 b0 => norm_num [toSextets]
  | case3 b0 b1 => norm_num [toSextets]
  | case4 b0 b1 b2 r ih =>
      have hm : (r.length + 3) % 3 = r.length % 3 := by omega
      have hd : (r.length + 3) / 3 = r.length / 3 + 1 := by omega
      simp only [toSextets, List.length_cons, ih]
      by_cases h3 : r.length % 3 = 0 <;> simp [h3, hm, hd] <;> omega

/-- Decoding the alphabet character of a sextet value. -/
theorem b64Index_b64Char_fin : ∀ x : Fin 64, b64Index (b64Char x.1) = some x.1 := by
  decide

/-- Alphabet characters are not `=`. -/
theorem b64Char_ne_eq : ∀ x : Fin 64, (b64Char x.1 == '=') = false := by decide

/-- Alphabet characters are not ASCII whitespace. -/
theorem b64Char_not_ws : ∀ x : Fin 64, isAsciiWs (b64Char x.1) = false := by decide

/-- The URL-safe swaps are undone by the decode-side swaps. -/
theorem b64Char_swap_round : ∀ x : Fin 64,
    swapChar '_' '/' (swapChar '-' '+'
      (swapChar '/' '_' (swapChar '+' '-' (b64Char x.1)))) = b64Char x.1 := by
  decide

/-- Swapped alphabet characters are not `=`. -/
theorem b64Char_swapped_ne_eq : ∀ x : Fin 64,
    (swapChar '/' '_' (swapChar '+' '-' (b64Char x.1)) == '=') = false := by
  decide

/-- Reading sextets back off the alphabet characters. -/
theorem b64IndexAll_map (l : List Nat) (h : ∀ x ∈ l, x < 64) :
    b64IndexAll (l.map b64Char) = some l := by
  induction l with
  | nil => rfl
  | cons x xs ih =>
      have hx := b64Index_b64Char_fin ⟨x, h x (by simp)⟩
      have ihx := ih (fun y hy => h y (by simp [hy]))
      simp [b64IndexAll, hx, ihx]

/-- Dropping `=` from a `=`-replicate prefix reaches the tail. -/
theorem dropWhile_replicate_eq (n : Nat) (l : List Char) :
    (List.replicate n '=' ++ l).dropWhile (fun c => c == '=') =
      l.dropWhile (fun c => c == '=') := by
  induction n with
  | zero => rfl
  | succ n ih => simp [List.replicate_succ, List.dropWhile_cons, ih]

/-- A list with no `=` anywhere survives the `=`-dropWhile. -/
theorem dropWhile_eq_self_of_ne (l : List Char)
    (h : ∀ c ∈ l, (c == '=') = false) :
    l.dropWhile (fun c => c == '=') = l := by
  cases l with
  | nil => rfl
  | cons c r => simp [List.dropWhile_cons, h c (by simp)]

/-- Stripping the trailing padding recovers the unpadded characters. -/
theorem dropTrailingEq_append_replicate (E : List Char) (p : Nat)
    (hE : ∀ c ∈ E, (c == '=') = false) :
    dropTrailingEq (E ++ List.replicate p '=') = E := by
  unfold dropTrailingEq
  rw [List.reverse_append, List.reverse_replicate, dropWhile_replicate_eq,
    dropWhile_eq_self_of_ne _ (fun c hc => hE c (List.mem_reverse.mp hc)),
    List.reverse_reverse]

/-- Forgiving-base64 padding removal recovers the unpadded characters when
the padded length is a multiple of four and at most two `=` were added. -/
theorem stripB64Pad_append_replicate (E : List Char) (p : Nat)
    (hlen : (E.length + p) % 4 = 0) (hp : p ≤ 2)
    (hE : ∀ c ∈ E, (c == '=') = false) :
    stripB64Pad (E ++ List.replicate p '=') = E := by
  have hl : ((E ++ List.replicate p '=').length % 4 == 0) = true := by
    simp only [List.length_append, List.length_replicate, beq_iff_eq]
    omega
  unfold stripB64Pad
  rw [hl]
  simp only [if_true]
  interval_cases p
  · rcases List.eq_nil_or_concat E with h0 | ⟨L, b, hLb⟩
    · subst h0
      rfl
    · rw [List.concat_eq_append] at hLb
      subst hLb
      have hb : (b == '=') = false := hE b (by simp)
      have hrev : ((L ++ [b]) ++ List.replicate 0 '=').reverse =
          b :: L.reverse := by
        simp
      rw [hrev]
      split
      · next r heq =>
          exfalso
          rw [List.cons.injEq] at heq
          simp [heq.1] at hb
      · next r heq =>
          exfalso
          rw [List.cons.injEq] at heq
          simp [heq.1] at hb
      · simp
  · rcases List.eq_nil_or_concat E with h0 | ⟨L, b, hLb⟩
    · subst h0
      rfl
    · rw [List.concat_eq_append] at hLb
      subst hLb
      have hb : (b == '=') = false := hE b (by simp)
      have hrev : ((L ++ [b]) ++ List.replicate 1 '=').reverse =
          '=' :: b :: L.reverse := by
        simp
      rw [hrev]
      split
      · next r heq =>
          exfalso
          rw [List.cons.injEq, List.cons.injEq] at heq
          simp [heq.2.1] at hb
      · next r heq =>
          rw [List.cons.injEq] at heq
          rw [← heq.2]
          simp
      · next hne1 hne2 =>
          exfalso
          exact hne2 (b :: L.reverse) rfl
  · have hrev : (E ++ List.replicate 2 '=').reverse = '=' :: '=' :: E.reverse := by
      simp
    rw [hrev]
    simp

/-- `atob` inverts the padded base64 encoding of byte input. -/
theorem atobChars_encode (bs : List Nat) (h : ∀ b ∈ bs, b < 256) (p : Nat)
    (hlen : ((toSextets bs).length + p) % 4 = 0) (hp : p ≤ 2) :
    atobChars ((toSextets bs).map b64Char ++ List.replicate p '=') = some bs := by
  have hx64 := toSextets_lt bs h
  have hEne : ∀ c ∈ (toSextets bs).map b64Char, (c == '=') = false := by
    intro c hc
    obtain ⟨x, hx, rfl⟩ := List.mem_map.mp hc
    exact b64Char_ne_eq ⟨x, hx64 x hx⟩
  have hfilter : ((toSextets bs).map b64Char ++ List.replicate p '=').filter
      (fun c => !isAsciiWs c) =
      (toSextets bs).map b64Char ++ List.replicate p '=' := by
    rw [List.filter_eq_self]
    intro c hc
    rcases List.mem_append.mp hc with hc | hc
    · obtain ⟨x, hx, rfl⟩ := List.mem_map.mp hc
      simp [b64Char_not_ws ⟨x, hx64 x hx⟩]
    · have hc' : c = '=' := List.eq_of_mem_replicate hc
      subst hc'
      rfl
  have hstrip := stripB64Pad_append_replicate ((toSextets bs).map b64Char) p
    (by simpa using hlen) hp hEne
  have hidx := b64IndexAll_map (toSextets bs) hx64
  have hfrom := fromSextets_toSextets bs h
  simp [atobChars, hfilter, hstrip, hidx, hfrom]

/-- The URL-safe character swaps cancel over an encoded character list. -/
theorem unswap_swap_maps (l : List Nat) (h : ∀ x ∈ l, x < 64) :
    (((((l.map b64Char).map (swapChar '+' '-')).map (swapChar '/' '_')).map
      (swapChar '-' '+')).map (swapChar '_' '/')) = l.map b64Char := by
  induction l with
  | nil => rfl
  | cons x xs ih =>
      have hx := b64Char_swap_round ⟨x, h x (by simp)⟩
      have ihx := ih (fun y hy => h y (by simp [hy]))
      simp only [List.map_cons, List.cons.injEq]
      exact ⟨hx, ihx⟩

/-- Swapped encoded characters are never `=`. -/
theorem encodeChars_swapped_ne_eq (bs : List Nat) (h : ∀ b ∈ bs, b < 256) :
    ∀ c ∈ (((toSextets bs).map b64Char).map (swapChar '+' '-')).map
      (swapChar '/' '_'), (c == '=') = false := by
  have hx64 := toSextets_lt bs h
  intro c hc
  obtain ⟨c1, hc1, rfl⟩ := List.mem_map.mp hc
  obtain ⟨c2, hc2, rfl⟩ := List.mem_map.mp hc1
  obtain ⟨y, hy, rfl⟩ := List.mem_map.mp hc2
  exact b64Char_swapped_ne_eq ⟨y, hx64 y hy⟩

/-- The url-safe encoding is exactly the swapped alphabet characters of the
sextets: the `=` padding is swap-invariant and then stripped. -/
theorem encodeChars_eq_swapped (bs : List Nat) (h : ∀ b ∈ bs, b < 256) :
    base64UrlEncodeChars bs =
      (((toSextets bs).map b64Char).map (swapChar '+' '-')).map
        (swapChar '/' '_') := by
  unfold base64UrlEncodeChars btoaChars
  rw [List.map_append, List.map_append, List.map_replicate,
    List.map_replicate]
  have e1 : swapChar '/' '_' (swapChar '+' '-' '=') = '=' := rfl
  rw [e1]
  exact dropTrailingEq_append_replicate _ _ (encodeChars_swapped_ne_eq bs h)

/-- Decoding inverts the url-safe encoding, at the character-list level. -/
theorem base64UrlDecodeChars_encodeChars (bs : List Nat)
    (h : ∀ b ∈ bs, b < 256) :
    base64UrlDecodeChars (base64UrlEncodeChars bs) = some bs := by
  have hx64 := toSextets_lt bs h
  have henc := encodeChars_eq_swapped bs h
  have hslen := toSextets_length bs
  have hpad : (4 - (toSextets bs).length % 4) % 4 = (3 - bs.length % 3) % 3 := by
    have h3 : bs.length % 3 = 0 ∨ bs.length % 3 = 1 ∨ bs.length % 3 = 2 := by
      omega
    rcases h3 with h3 | h3 | h3 <;> simp [h3] at hslen <;> omega
  have hlen4 : ((toSextets bs).length + (3 - bs.length % 3) % 3) % 4 = 0 := by
    have h3 : bs.length % 3 = 0 ∨ bs.length % 3 = 1 ∨ bs.length % 3 = 2 := by
      omega
    rcases h3 with h3 | h3 | h3 <;> simp [h3] at hslen <;> omega
  have hmaplen : ((((toSextets bs).map b64Char).map (swapChar '+' '-')).map
      (swapChar '/' '_')).length = (toSextets bs).length := by
    simp
  rw [henc]
  unfold base64UrlDecodeChars padTo4
  rw [hmaplen, hpad, List.map_append, List.map_append, List.map_replicate,
    List.map_replicate]
  have e2 : swapChar '_' '/' (swapChar '-' '+' '=') = '=' := rfl
  rw [e2, unswap_swap_maps _ hx64]
  exact atobChars_encode bs h _ hlen4 (by omega)

/-- Character codes below 256 survive the `ofNat` / `toNat` round trip. -/
theorem char_toNat_ofNat (b : Nat) (h : b < 256) : (Char.ofNat b).toNat = b := by
  have hv : Nat.isValidChar b := Or.inl (by omega)
  simp [Char.ofNat, hv, Char.toNat, Char.ofNatAux, UInt32.toNat]

/-! ## SHA-256 digest shape and login-URL lemmas -/

/-- SHA-256 digests are 32 bytes. -/
theorem sha256Bytes_length (m : List Nat) : (sha256Bytes m).length = 32 := by
  simp [sha256Bytes, word4]

/-- Serialized words are bytes. -/
theorem word4_lt (x : Nat) : ∀ b ∈ word4 x, b < 256 := by
  intro b hb
  simp [word4] at hb
  rcases hb with h | h | h | h <;> omega

/-- SHA-256 digest bytes are bytes. -/
theorem sha256Bytes_lt (m : List Nat) : ∀ b ∈ sha256Bytes m, b < 256 := by
  intro b hb
  simp only [sha256Bytes, List.mem_append] at hb
  rcases hb with ((((((hb | hb) | hb) | hb) | hb) | hb) | hb) | hb <;>
    exact word4_lt _ b hb

/-- Encoding a non-empty byte list yields a non-empty string. -/
theorem base64UrlEncode_ne_empty (bs : List Nat) (h : ∀ b ∈ bs, b < 256)
    (hne : bs ≠ []) : base64UrlEncode bs ≠ "" := by
  have hlen : (base64UrlEncodeChars bs).length = (toSextets bs).length := by
    rw [encodeChars_eq_swapped bs h]
    simp
  have hslen := toSextets_length bs
  have hn : 0 < bs.length := List.length_pos.mpr hne
  have hpos : 0 < (toSextets bs).length := by
    by_cases h3 : bs.length % 3 = 0 <;> simp [h3] at hslen <;> omega
  intro heq
  have hdata := congrArg String.data heq
  simp only [base64UrlEncode] at hdata
  have : (base64UrlEncodeChars bs).length = 0 := by
    rw [show (base64UrlEncodeChars bs) = ("" : String).data from hdata]
    rfl
  omega

/-- Swapped encoded characters are ASCII-safe for the form serializer: their
UTF-8 encoding is their code point and the serializer keeps them verbatim. -/
theorem b64u_char_formSafe : ∀ x : Fin 64,
    utf8EncodeChar (swapChar '/' '_' (swapChar '+' '-' (b64Char x.1))) =
      [(swapChar '/' '_' (swapChar '+' '-' (b64Char x.1))).toNat] ∧
    formEncByte (swapChar '/' '_' (swapChar '+' '-' (b64Char x.1))).toNat =
      [swapChar '/' '_' (swapChar '+' '-' (b64Char x.1))] := by
  decide

/-- Strings of serializer-safe characters are form-urlencoded verbatim. -/
theorem formEncode_fixed (l : List Char)
    (h : ∀ c ∈ l, utf8EncodeChar c = [c.toNat] ∧ formEncByte c.toNat = [c]) :
    formEncode (String.mk l) = String.mk l := by
  have hcore : (l.map (List.map formEncByte ∘ utf8EncodeChar)).flatten.flatten
      = l := by
    induction l with
    | nil => rfl
    | cons c r ih =>
        have hc := h c (by simp)
        simp [Function.comp, hc.1, hc.2, ih (fun d hd => h d (by simp [hd]))]
  simp [formEncode, utf8Encode, hcore]

/-- The base64url encoding of a byte list is form-urlencoded verbatim. -/
theorem formEncode_base64UrlEncode (bs : List Nat) (h : ∀ b ∈ bs, b < 256) :
    formEncode (base64UrlEncode bs) = base64UrlEncode bs := by
  have hx64 := toSextets_lt bs h
  unfold base64UrlEncode
  apply formEncode_fixed
  intro c hc
  rw [encodeChars_eq_swapped bs h] at hc
  obtain ⟨c1, hc1, rfl⟩ := List.mem_map.mp hc
  obtain ⟨c2, hc2, rfl⟩ := List.mem_map.mp hc1
  obtain ⟨y, hy, rfl⟩ := List.mem_map.mp hc2
  exact b64u_char_formSafe ⟨y, hx64 y hy⟩

/-! ## Claim C2 -/

/-- C2: for every config and code, if no verifier is stored under
`cognito_pkce_verifier` when `exchangeCodeForTokens` is called, the call
throws (signals failure) and issues no network request. -/
theorem exchange_no_verifier_fails_no_fetch (config : AuthConfig) (code : String)
    (sessionSt localSt : Storage) (resp : TokenResp)
    (h : sessionSt.getItem CODE_VERIFIER_KEY = none) :
    (exchangeCodeForTokens config code sessionSt localSt resp).result =
      .error .missingVerifier ∧
    (exchangeCodeForTokens config code sessionSt localSt resp).fetched = false ∧
    (exchangeCodeForTokens config code sessionSt localSt resp).requestBody = none := by
  simp [exchangeCodeForTokens, h, jsTruthy]

/-- Witness for C2 at a concrete empty session storage. -/
theorem exchange_no_verifier_fails_no_fetch_witness :
    (Storage.mk []).getItem CODE_VERIFIER_KEY = none ∧
    ((exchangeCodeForTokens ⟨"d.example", "cid", "ru", "lu", "sc", none⟩ "code0"
        ⟨[]⟩ ⟨[]⟩ ⟨true, none⟩).result = .error .missingVerifier ∧
      (exchangeCodeForTokens ⟨"d.example", "cid", "ru", "lu", "sc", none⟩ "code0"
        ⟨[]⟩ ⟨[]⟩ ⟨true, none⟩).fetched = false ∧
      (exchangeCodeForTokens ⟨"d.example", "cid", "ru", "lu", "sc", none⟩ "code0"
        ⟨[]⟩ ⟨[]⟩ ⟨true, none⟩).requestBody = none) :=
  ⟨rfl, exchange_no_verifier_fails_no_fetch _ _ _ _ _ rfl⟩

/-! ## Claim C10 -/

/-- C10: whenever `exchangeCodeForTokens` signals an error (missing verifier,
non-success HTTP status, or an unparsable body), it performs no storage
writes: both storages come back exactly as they went in; in particular the
verifier is not cleared. -/
theorem exchange_error_no_writes (config : AuthConfig) (code : String)
    (sessionSt localSt : Storage) (resp : TokenResp) (e : ExErr)
    (h : (exchangeCodeForTokens config code sessionSt localSt resp).result =
      .error e) :
    (exchangeCodeForTokens config code sessionSt localSt resp).session =
      sessionSt ∧
    (exchangeCodeForTokens config code sessionSt localSt resp).durable =
      localSt :=
  exchange_error_storages config code sessionSt localSt resp e h

/-- Witness for C10 at a concrete failing (non-ok) response. -/
theorem exchange_error_no_writes_witness :
    (exchangeCodeForTokens ⟨"d.example", "cid", "ru", "lu", "sc", none⟩ "code0"
      ⟨[(CODE_VERIFIER_KEY, "ver")]⟩ ⟨[(ID_TOKEN_KEY, "tok")]⟩
      ⟨false, none⟩).result = .error .httpError ∧
    ((exchangeCodeForTokens ⟨"d.example", "cid", "ru", "lu", "sc", none⟩ "code0"
        ⟨[(CODE_VERIFIER_KEY, "ver")]⟩ ⟨[(ID_TOKEN_KEY, "tok")]⟩
        ⟨false, none⟩).session = ⟨[(CODE_VERIFIER_KEY, "ver")]⟩ ∧
      (exchangeCodeForTokens ⟨"d.example", "cid", "ru", "lu", "sc", none⟩ "code0"
        ⟨[(CODE_VERIFIER_KEY, "ver")]⟩ ⟨[(ID_TOKEN_KEY, "tok")]⟩
        ⟨false, none⟩).durable = ⟨[(ID_TOKEN_KEY, "tok")]⟩) :=
  ⟨rfl, exchange_error_no_writes _ _ _ _ _ .httpError rfl⟩

/-! ## Claim C3 -/

/-- C3: with a verifier present and the token endpoint answering ok with a
JSON body whose id_token is "a.b.c", the exchange stores "a.b.c" under
`cognito_id_token`, removes the session verifier, and returns true (a token
was present and stored). -/
theorem exchange_success_stores_and_clears (config : AuthConfig) (code : String)
    (sessionSt localSt : Storage) (resp : TokenResp) (acc : Option String)
    (hv : jsTruthy (sessionSt.getItem CODE_VERIFIER_KEY) = true)
    (hok : resp.ok = true)
    (hb : resp.jsonBody = some ⟨some "a.b.c", acc⟩) :
    (exchangeCodeForTokens config code sessionSt localSt resp).durable.getItem
      ID_TOKEN_KEY = some "a.b.c" ∧
    (exchangeCodeForTokens config code sessionSt localSt resp).session.getItem
      CODE_VERIFIER_KEY = none ∧
    (exchangeCodeForTokens config code sessionSt localSt resp).result =
      .ok true := by
  have hne : ID_TOKEN_KEY ≠ ACCESS_TOKEN_KEY := by decide
  have hid : jsTruthy (some "a.b.c") = true := rfl
  by_cases hacc : jsTruthy acc
  · simp [exchangeCodeForTokens, hv, hok, hb, hacc, hid,
      Storage.getItem_setItem_ne _ _ _ _ hne, Storage.getItem_setItem_self,
      Storage.getItem_removeItem_self]
  · have hacc' : jsTruthy acc = false := by simpa using hacc
    simp [exchangeCodeForTokens, hv, hok, hb, hacc', hid,
      Storage.getItem_setItem_self, Storage.getItem_removeItem_self]

/-- Witness for C3 at a concrete session, store and response. -/
theorem exchange_success_stores_and_clears_witness :
    jsTruthy ((Storage.mk [(CODE_VERIFIER_KEY, "ver")]).getItem
      CODE_VERIFIER_KEY) = true ∧
    (TokenResp.mk true (some ⟨some "a.b.c", none⟩)).ok = true ∧
    ((exchangeCodeForTokens ⟨"d.example", "cid", "ru", "lu", "sc", none⟩ "code0"
        ⟨[(CODE_VERIFIER_KEY, "ver")]⟩ ⟨[]⟩
        ⟨true, some ⟨some "a.b.c", none⟩⟩).durable.getItem ID_TOKEN_KEY =
        some "a.b.c" ∧
      (exchangeCodeForTokens ⟨"d.example", "cid", "ru", "lu", "sc", none⟩ "code0"
        ⟨[(CODE_VERIFIER_KEY, "ver")]⟩ ⟨[]⟩
        ⟨true, some ⟨some "a.b.c", none⟩⟩).session.getItem CODE_VERIFIER_KEY =
        none ∧
      (exchangeCodeForTokens ⟨"d.example", "cid", "ru", "lu", "sc", none⟩ "code0"
        ⟨[(CODE_VERIFIER_KEY, "ver")]⟩ ⟨[]⟩
        ⟨true, some ⟨some "a.b.c", none⟩⟩).result = .ok true) :=
  ⟨rfl, rfl, exchange_success_stores_and_clears _ _ _ _ _ none rfl rfl rfl⟩

/-! ## Claim C7 -/

/-- C7: with no file selected or a submission already in flight, the submit
handler is a no-op: state unchanged and no request issued. -/
theorem handleSubmit_noop_without_file
    (parseJson : String → Option (List (String × String)))
    (s : UploadState) (outcome : FetchOutcome)
    (h : s.file = none ∨ s.isSubmitting = true) :
    handleSubmit parseJson s outcome = ⟨s, false, none⟩ := by
  have hc : (s.file.isNone || s.isSubmitting) = true := by
    rcases h with h | h <;> simp [h]
  simp [handleSubmit, hc]

/-- Witness for C7 with no file selected. -/
theorem handleSubmit_noop_without_file_witness :
    ((⟨none, "", false, "", none⟩ : UploadState).file = none ∨
      (⟨none, "", false, "", none⟩ : UploadState).isSubmitting = true) ∧
    handleSubmit parseJsonFlat ⟨none, "", false, "", none⟩ (.netThrow none) =
      ⟨⟨none, "", false, "", none⟩, false, none⟩ :=
  ⟨Or.inl rfl, handleSubmit_noop_without_file _ _ _ (Or.inl rfl)⟩

/-! ## Claim C8 -/

/-- C8: a non-2xx transcription response whose body parses to a JSON object
with detail "file too large" displays exactly "file too large"; a non-2xx
response whose body does not parse, or parses without a detail field,
displays the fallback "Transcription failed". -/
theorem transcribe_error_detail_display
    (parseJson : String → Option (List (String × String)))
    (s : UploadState) (f body : String)
    (hfile : s.file = some f) (hsub : s.isSubmitting = false) :
    (∀ obj, parseJson body = some obj →
      obj.lookup "detail" = some "file too large" →
      (handleSubmit parseJson s (.httpError body)).state.error =
        "file too large") ∧
    (parseJson body = none →
      (handleSubmit parseJson s (.httpError body)).state.error =
        "Transcription failed") ∧
    (∀ obj, parseJson body = some obj → obj.lookup "detail" = none →
      (handleSubmit parseJson s (.httpError body)).state.error =
        "Transcription failed") := by
  have hc : (s.file.isNone || s.isSubmitting) = false := by simp [hfile, hsub]
  refine ⟨fun obj hp hd => ?_, fun hp => ?_, fun obj hp hd => ?_⟩
  · simp [handleSubmit, hc, hp, hd]
  · simp [handleSubmit, hc, hp]
  · simp [handleSubmit, hc, hp, hd]

/-- Witness for C8 at the literal error body, via the concrete parser. -/
theorem transcribe_error_detail_display_witness :
    (⟨some "a.wav", "", false, "", none⟩ : UploadState).file = some "a.wav" ∧
    (⟨some "a.wav", "", false, "", none⟩ : UploadState).isSubmitting = false ∧
    parseJsonFlat "\x7b\"detail\":\"file too large\"\x7d" =
      some [("detail", "file too large")] ∧
    (handleSubmit parseJsonFlat ⟨some "a.wav", "", false, "", none⟩
      (.httpError "\x7b\"detail\":\"file too large\"\x7d")).state.error =
      "file too large" :=
  ⟨rfl, rfl, rfl,
    (transcribe_error_detail_display parseJsonFlat _ "a.wav"
      "\x7b\"detail\":\"file too large\"\x7d" rfl rfl).1 _ rfl rfl⟩

/-! ## Claim C4 -/

/-- C4 counterexample: a page load with an error query parameter while an ID
token sits in durable storage renders authenticated, not unauthenticated —
refuting the claim's "regardless of whatever tokens are already present". -/
theorem pageLoad_error_with_tokens_stays_authed :
    ¬ ((pageLoad ⟨"d.example", "cid", "ru", "lu", "sc", none⟩
        ⟨none, some "access_denied"⟩ ⟨[]⟩ ⟨[(ID_TOKEN_KEY, "tok")]⟩
        ⟨false, none⟩).state.authed = false) := by
  decide

/-- C4 (amended): on every page load with a non-empty error query parameter,
the error state takes that value and no exchange is attempted (no request,
storages untouched); the rendered state is unauthenticated exactly when no
token is present in durable storage. -/
theorem pageLoad_error_param_amended (config : AuthConfig) (q : Query)
    (sessionSt localSt : Storage) (resp : TokenResp) (e : String)
    (he : q.error = some e) (hne : e ≠ "") :
    (pageLoad config q sessionSt localSt resp).state.authError = e ∧
    (pageLoad config q sessionSt localSt resp).fetched = false ∧
    (pageLoad config q sessionSt localSt resp).state.session = sessionSt ∧
    (pageLoad config q sessionSt localSt resp).state.durable = localSt ∧
    (pageLoad config q sessionSt localSt resp).state.authed =
      isAuthenticated localSt := by
  have ht : jsTruthy (some e) = true := by simp [jsTruthy, hne]
  simp [pageLoad, he, ht]

/-- Witness for C4 (amended) at a concrete error parameter. -/
theorem pageLoad_error_param_amended_witness :
    (Query.mk none (some "access_denied")).error = some "access_denied" ∧
    "access_denied" ≠ "" ∧
    ((pageLoad ⟨"d.example", "cid", "ru", "lu", "sc", none⟩
        ⟨none, some "access_denied"⟩ ⟨[]⟩ ⟨[]⟩ ⟨false, none⟩).state.authError =
        "access_denied" ∧
      (pageLoad ⟨"d.example", "cid", "ru", "lu", "sc", none⟩
        ⟨none, some "access_denied"⟩ ⟨[]⟩ ⟨[]⟩ ⟨false, none⟩).fetched = false ∧
      (pageLoad ⟨"d.example", "cid", "ru", "lu", "sc", none⟩
        ⟨none, some "access_denied"⟩ ⟨[]⟩ ⟨[]⟩ ⟨false, none⟩).state.session =
        ⟨[]⟩ ∧
      (pageLoad ⟨"d.example", "cid", "ru", "lu", "sc", none⟩
        ⟨none, some "access_denied"⟩ ⟨[]⟩ ⟨[]⟩ ⟨false, none⟩).state.durable =
        ⟨[]⟩ ∧
      (pageLoad ⟨"d.example", "cid", "ru", "lu", "sc", none⟩
        ⟨none, some "access_denied"⟩ ⟨[]⟩ ⟨[]⟩ ⟨false, none⟩).state.authed =
        isAuthenticated ⟨[]⟩) :=
  ⟨rfl, by decide,
    pageLoad_error_param_amended _ _ _ _ _ "access_denied" rfl (by decide)⟩

/-! ## Claim C5 -/

/-- C5: `isAuthenticated` is true exactly when one of the two token keys
holds a non-empty value in durable storage, and in every reachable state
(page loads, exchanges within them, logins, logouts) the rendered `authed`
flag equals that storage presence check. -/
theorem auth_invariant_reachable :
    (∀ st : Storage, isAuthenticated st = true ↔
      ((∃ v, st.getItem ID_TOKEN_KEY = some v ∧ v ≠ "") ∨
       (∃ v, st.getItem ACCESS_TOKEN_KEY = some v ∧ v ≠ ""))) ∧
    (∀ s : AppState, Reachable s → s.authed = isAuthenticated s.durable) := by
  constructor
  · intro st
    simp [isAuthenticated, Bool.or_eq_true, jsTruthy_iff]
  · intro s hs
    induction hs with
    | load config q sessionSt localSt resp =>
        exact pageLoad_consistent config q sessionSt localSt resp
    | logout s _ _ => simp [logoutClick, isAuthenticated_logout]
    | login s config rnd _ ih =>
        by_cases hc : (config.domain != "" && config.clientId != "") = true
        · simpa [loginClick, hc] using ih
        · have hc' : (config.domain != "" && config.clientId != "") = false := by
            simpa using hc
          simpa [loginClick, hc'] using ih

/-- Witness for C5: the invariant applied to a concrete freshly loaded
state. -/
theorem auth_invariant_reachable_witness :
    (pageLoad ⟨"d.example", "cid", "ru", "lu", "sc", none⟩ ⟨none, none⟩
      ⟨[]⟩ ⟨[(ID_TOKEN_KEY, "tok")]⟩ ⟨false, none⟩).state.authed =
    isAuthenticated
      (pageLoad ⟨"d.example", "cid", "ru", "lu", "sc", none⟩ ⟨none, none⟩
        ⟨[]⟩ ⟨[(ID_TOKEN_KEY, "tok")]⟩ ⟨false, none⟩).state.durable :=
  auth_invariant_reachable.2 _ (Reachable.load _ _ _ _ _)

/-! ## Claim C6 -/

/-- Peeling one claim key off the spec-side chain mirrors one `||` step. -/
theorem firstPresent_cons (obj : List (String × String)) (k : String)
    (ks : List String) :
    firstPresent obj (k :: ks) = jsOrStr (lookupStr obj k) (firstPresent obj ks) := by
  cases h : obj.lookup k with
  | none => simp [firstPresent, h, jsOrStr, lookupStr]
  | some v =>
      by_cases hv : (v != "") = true <;>
        simp [firstPresent, h, jsOrStr, lookupStr, hv]

/-- C6: for a stored ID token whose middle segment base64url-decodes to a
JSON object carrying email "x@y.com" and no name fields, the label is
exactly "x@y.com"; for a middle segment that cannot be decoded as base64url
JSON - whether the base64url decode itself fails or the decoded text fails
to parse as JSON - the label is ""; and in general the label is the first
present truthy claim among name, given_name, email, cognito:username,
preferred_username, username. -/
theorem getUserLabel_spec
    (parseJson : String → Option (List (String × String)))
    (localSt : Storage) (token payload : String)
    (htok : localSt.getItem ID_TOKEN_KEY = some token)
    (hsplit : ((splitDot token.data).map String.mk).get? 1 = some payload)
    (hpay : payload ≠ "") :
    (∀ s obj, base64UrlDecode payload = some s → parseJson s = some obj →
      obj.lookup "name" = none → obj.lookup "given_name" = none →
      obj.lookup "email" = some "x@y.com" →
      getUserLabel parseJson localSt = "x@y.com") ∧
    (base64UrlDecode payload = none → getUserLabel parseJson localSt = "") ∧
    (∀ s, base64UrlDecode payload = some s → parseJson s = none →
      getUserLabel parseJson localSt = "") ∧
    (∀ s obj, base64UrlDecode payload = some s → parseJson s = some obj →
      getUserLabel parseJson localSt =
        firstPresent obj ["name", "given_name", "email", "cognito:username",
          "preferred_username", "username"]) := by
  have htok' : (token == "") = false := by
    by_cases ht : token = ""
    · subst ht
      simp [splitDot] at hsplit
    · simpa using ht
  have hpay' : (payload == "") = false := by simpa using hpay
  have hsplit' : Option.map String.mk (splitDot token.data)[1]? = some payload := by
    simpa using hsplit
  refine ⟨fun s obj hdec hp h1 h2 h3 => ?_, fun hdec => ?_,
    fun s hdec hp => ?_, fun s obj hdec hp => ?_⟩
  · simp [getUserLabel, htok, htok', hsplit', hpay', hdec, hp, lookupStr,
      h1, h2, h3, jsOrStr, hpay]
  · simp [getUserLabel, htok, htok', hsplit', hpay', hdec, hpay]
  · simp [getUserLabel, htok, htok', hsplit', hpay', hdec, hp, hpay]
  · have hchain : ∀ ks : List String,
        ks.foldr (fun k acc => jsOrStr (lookupStr obj k) acc) "" =
          firstPresent obj ks := by
      intro ks
      induction ks with
      | nil => rfl
      | cons k ks ih => rw [List.foldr_cons, firstPresent_cons, ih]
    have hg : getUserLabel parseJson localSt =
        jsOrStr (lookupStr obj "name") (jsOrStr (lookupStr obj "given_name")
          (jsOrStr (lookupStr obj "email")
            (jsOrStr (lookupStr obj "cognito:username")
              (jsOrStr (lookupStr obj "preferred_username")
                (jsOrStr (lookupStr obj "username") ""))))) := by
      simp [getUserLabel, htok, htok', hsplit', hpay', hdec, hp, hpay]
    rw [hg]
    exact hchain ["name", "given_name", "email", "cognito:username",
      "preferred_username", "username"]

/-- Witness for C6: a concrete token whose payload segment is the base64url
encoding of the object with email "x@y.com", labelled via the concrete
parser; and a second token whose payload decodes to plain non-JSON text, so
the label is empty. -/
theorem getUserLabel_spec_witness :
    (Storage.mk [(ID_TOKEN_KEY, "h.eyJlbWFpbCI6InhAeS5jb20ifQ.s")]).getItem
      ID_TOKEN_KEY = some "h.eyJlbWFpbCI6InhAeS5jb20ifQ.s" ∧
    ((splitDot "h.eyJlbWFpbCI6InhAeS5jb20ifQ.s".data).map String.mk).get? 1 =
      some "eyJlbWFpbCI6InhAeS5jb20ifQ" ∧
    base64UrlDecode "eyJlbWFpbCI6InhAeS5jb20ifQ" =
      some "\x7b\"email\":\"x@y.com\"\x7d" ∧
    parseJsonFlat "\x7b\"email\":\"x@y.com\"\x7d" = some [("email", "x@y.com")] ∧
    getUserLabel parseJsonFlat
      ⟨[(ID_TOKEN_KEY, "h.eyJlbWFpbCI6InhAeS5jb20ifQ.s")]⟩ = "x@y.com" ∧
    base64UrlDecode "aGVsbG8" = some "hello" ∧
    parseJsonFlat "hello" = none ∧
    getUserLabel parseJsonFlat ⟨[(ID_TOKEN_KEY, "h.aGVsbG8.s")]⟩ = "" :=
  ⟨rfl, rfl, rfl, rfl,
    (getUserLabel_spec parseJsonFlat
      ⟨[(ID_TOKEN_KEY, "h.eyJlbWFpbCI6InhAeS5jb20ifQ.s")]⟩
      "h.eyJlbWFpbCI6InhAeS5jb20ifQ.s"
      "eyJlbWFpbCI6InhAeS5jb20ifQ" rfl rfl (by decide)).1
      "\x7b\"email\":\"x@y.com\"\x7d" [("email", "x@y.com")] rfl rfl rfl rfl rfl,
    rfl, rfl,
    (getUserLabel_spec parseJsonFlat ⟨[(ID_TOKEN_KEY, "h.aGVsbG8.s")]⟩
      "h.aGVsbG8.s" "aGVsbG8" rfl rfl (by decide)).2.2.1 "hello" rfl rfl⟩

/-! ## Claim C9 -/

/-- C9: for every byte list, `base64UrlDecode` applied to `base64UrlEncode`
returns exactly the binary string whose character codes are the input bytes:
the decode re-adds the stripped `=` padding and undoes the `-` and `_`
substitutions. -/
theorem base64url_roundtrip (bs : List Nat) (h : ∀ b ∈ bs, b < 256) :
    base64UrlDecode (base64UrlEncode bs) =
      some (String.mk (bs.map Char.ofNat)) ∧
    (bs.map Char.ofNat).map Char.toNat = bs := by
  have hdec := base64UrlDecodeChars_encodeChars bs h
  constructor
  · simp [base64UrlDecode, base64UrlEncode, hdec]
  · induction bs with
    | nil => rfl
    | cons b bsr ih =>
        have hb := char_toNat_ofNat b (h b (by simp))
        have ihr := ih (fun y hy => h y (by simp [hy]))
          (base64UrlDecodeChars_encodeChars bsr
            (fun y hy => h y (by simp [hy])))
        simp only [List.map_cons, List.cons.injEq]
        exact ⟨hb, ihr⟩

/-- Witness for C9 at a concrete byte list exercising `-`/`_` and padding. -/
theorem base64url_roundtrip_witness :
    (∀ b ∈ [0, 77, 255, 254, 1], b < 256) ∧
    (base64UrlDecode (base64UrlEncode [0, 77, 255, 254, 1]) =
      some (String.mk ([0, 77, 255, 254, 1].map Char.ofNat)) ∧
     ([0, 77, 255, 254, 1].map Char.ofNat).map Char.toNat =
       [0, 77, 255, 254, 1]) :=
  ⟨by decide, base64url_roundtrip [0, 77, 255, 254, 1] (by decide)⟩

/-! ## Claim C1 -/

/-- C1: for every config with non-empty domain and client id (and any
64 random bytes), the authorization URL of `buildLoginUrl` carries the
query components code_challenge_method=S256 and a non-empty code_challenge
equal to the base64url-encoded SHA-256 digest of exactly the verifier that
was stored in session storage under the fixed key. -/
theorem buildLoginUrl_challenge_s256 (config : AuthConfig) (rnd : List Nat)
    (sessionSt : Storage)
    (hd : config.domain ≠ "") (hc : config.clientId ≠ "")
    (hr : ∀ b ∈ rnd, b < 256) :
    ∃ verifier challenge : String,
      (buildLoginUrl config rnd sessionSt).session.getItem CODE_VERIFIER_KEY =
        some verifier ∧
      challenge = base64UrlEncode (sha256Bytes (utf8Encode verifier)) ∧
      challenge ≠ "" ∧
      (buildLoginUrl config rnd sessionSt).url =
        buildHostedUrl config "/oauth2/authorize" ++ "?" ++
          String.intercalate "&"
            ((loginQueryParams config challenge).map
              (fun pr => formEncode pr.1 ++ "=" ++ formEncode pr.2)) ∧
      "code_challenge_method=S256" ∈
        (loginQueryParams config challenge).map
          (fun pr => formEncode pr.1 ++ "=" ++ formEncode pr.2) ∧
      ("code_challenge=" ++ challenge) ∈
        (loginQueryParams config challenge).map
          (fun pr => formEncode pr.1 ++ "=" ++ formEncode pr.2) := by
    have hdig := sha256Bytes_lt (utf8Encode (randomVerifier rnd))
    have hdiglen := sha256Bytes_length (utf8Encode (randomVerifier rnd))
    have hdigne : sha256Bytes (utf8Encode (randomVerifier rnd)) ≠ [] := by
      intro h0
      rw [h0] at hdiglen
      simp at hdiglen
    refine ⟨randomVerifier rnd, createCodeChallenge (randomVerifier rnd),
      ?_, rfl, ?_, rfl, ?_, ?_⟩
    · simp [buildLoginUrl, Storage.getItem_setItem_self]
    · exact base64UrlEncode_ne_empty _ hdig hdigne
    · refine List.mem_map.mpr ⟨("code_challenge_method", "S256"), ?_, ?_⟩
      · simp [loginQueryParams]
      · rfl
    · refine List.mem_map.mpr
        ⟨("code_challenge", createCodeChallenge (randomVerifier rnd)), ?_, ?_⟩
      · simp [loginQueryParams]
      · show formEncode "code_challenge" ++ "=" ++
            formEncode (createCodeChallenge (randomVerifier rnd)) = _
        rw [show createCodeChallenge (randomVerifier rnd) =
          base64UrlEncode (sha256Bytes (utf8Encode (randomVerifier rnd)))
          from rfl]
        rw [formEncode_base64UrlEncode _ hdig]
        rfl

/-- Witness for C1 at a concrete config and fixed random bytes. -/
theorem buildLoginUrl_challenge_s256_witness :
    ("d.example" : String) ≠ "" ∧ ("cid" : String) ≠ "" ∧
    (∀ b ∈ List.replicate 64 7, b < 256) ∧
    (∃ verifier challenge : String,
      (buildLoginUrl ⟨"d.example", "cid", "ru", "lu", "sc", none⟩
        (List.replicate 64 7) ⟨[]⟩).session.getItem CODE_VERIFIER_KEY =
        some verifier ∧
      challenge = base64UrlEncode (sha256Bytes (utf8Encode verifier)) ∧
      challenge ≠ "" ∧
      (buildLoginUrl ⟨"d.example", "cid", "ru", "lu", "sc", none⟩
        (List.replicate 64 7) ⟨[]⟩).url =
        buildHostedUrl ⟨"d.example", "cid", "ru", "lu", "sc", none⟩
            "/oauth2/authorize" ++ "?" ++
          String.intercalate "&"
            ((loginQueryParams ⟨"d.example", "cid", "ru", "lu", "sc", none⟩
                challenge).map
              (fun pr => formEncode pr.1 ++ "=" ++ formEncode pr.2)) ∧
      "code_challenge_method=S256" ∈
        (loginQueryParams ⟨"d.example", "cid", "ru", "lu", "sc", none⟩
            challenge).map
          (fun pr => formEncode pr.1 ++ "=" ++ formEncode pr.2) ∧
      ("code_challenge=" ++ challenge) ∈
        (loginQueryParams ⟨"d.example", "cid", "ru", "lu", "sc", none⟩
            challenge).map
          (fun pr => formEncode pr.1 ++ "=" ++ formEncode pr.2)) :=
  ⟨by decide, by decide, by decide,
    buildLoginUrl_challenge_s256 ⟨"d.example", "cid", "ru", "lu", "sc", none⟩
      (List.replicate 64 7) ⟨[]⟩ (by decide) (by decide) (by decide)⟩

end ClassoMono
